import Mathlib

/-! Verification of `scripts/deploy-test.js`.

The script is a single linear `async` call sequence against the Hardhat
runtime, followed by a `.then` / `.catch` chain that ends the process.
The embedding keeps the script's own control flow (sequencing of `await`,
the promise chain, `process.exit`) and takes the framework as a parameter:
every framework call is answered by the `Hardhat` record.

Observable behaviour of one invocation is collected in a `Process` value:
the ordered trace of calls, the lines written to standard output, the
values written to standard error and the code handed to `process.exit`.
The status with which the process ends is read off it by `exitStatus`.
-/

namespace DeployTest

/-! ## Data handled by the script -/

/-- A JavaScript value raised with `throw` (or used to reject a promise). -/
structure JsError where
  message : String
  deriving DecidableEq, Repr

/-- The contract factory handle returned by `hre.ethers.getContractFactory`.
The script never looks inside it; `ref` only tells two handles apart. -/
structure ContractFactory where
  ref : Nat
  deriving DecidableEq, Repr

/-- The deployed-contract handle returned by `XOXO.deploy()`. The script reads
one field of it, `address`; `ref` stands for everything else it carries. -/
structure Contract where
  address : String
  ref : Nat
  deriving DecidableEq, Repr

/-- What an `await`ed expression does: the promise is fulfilled with a value,
is rejected with a reason (also covers a synchronous `throw` while the call
expression is evaluated), or never settles. -/
inductive Awaited (α : Type) where
  | fulfilled (value : α)
  | rejected (reason : JsError)
  | pending
  deriving DecidableEq, Repr

/-- The external framework (`require("hardhat")`), as far as the script calls
into it: `hre.ethers.getContractFactory(name)`, `factory.deploy(...args)` and
`contract.deployed()`. -/
structure Hardhat where
  getContractFactory : String → Awaited ContractFactory
  deploy : ContractFactory → List String → Awaited Contract
  deployed : Contract → Awaited Unit

/-! ## The process and its observable effects -/

/-- One observable action of the script. -/
inductive Event where
  | getContractFactory (name : String)
  | deploy (factory : ContractFactory) (args : List String)
  | deployed (contract : Contract)
  | log (line : String)
  | error (e : JsError)
  | exit (code : Nat)
  deriving DecidableEq, Repr

/-- Everything one invocation of the script lets the outside observe.
`stdout` holds one entry per `console.log` call (the runtime ends each with a
newline), `stderr` one entry per `console.error` call, and `exitCode` the
argument of `process.exit`, `none` as long as `process.exit` was not called. -/
structure Process where
  trace : List Event := []
  stdout : List String := []
  stderr : List JsError := []
  exitCode : Option Nat := none
  deriving DecidableEq, Repr

/-- How a piece of JavaScript finishes. -/
inductive Completion (α : Type) where
  | normal (value : α)
  | throw (e : JsError)
  | suspended
  | exited
  deriving DecidableEq, Repr

/-- A piece of JavaScript acting on the process: state passing with the way it
finished. For an `async` function this is the returned promise together with
the effects of running the body: `normal` is a fulfilled promise, `throw` a
rejected one, `suspended` one that stays pending, `exited` a process ended
by `process.exit` before the promise settled. -/
def Script (α : Type) : Type := Process → Completion α × Process

/-- Sequencing of statements: the rest runs only after a normal completion. -/
def Script.bind {α β : Type} (m : Script α) (k : α → Script β) : Script β := fun p =>
  match m p with
  | (.normal a, p1) => k a p1
  | (.throw e, p1) => (.throw e, p1)
  | (.suspended, p1) => (.suspended, p1)
  | (.exited, p1) => (.exited, p1)

instance : Monad Script where
  pure := fun a p => (.normal a, p)
  bind := Script.bind

/-- `await r`: resume with the value, rethrow the rejection reason, or stay
suspended for ever. -/
def await {α : Type} (r : Awaited α) : Script α := fun p =>
  match r with
  | .fulfilled v => (.normal v, p)
  | .rejected e => (.throw e, p)
  | .pending => (.suspended, p)

/-- Record a call in the trace. -/
def emit (ev : Event) : Script Unit := fun p =>
  (.normal (), { p with trace := p.trace ++ [ev] })

/-- `await hre.ethers.getContractFactory(name)`. -/
def getContractFactory (hre : Hardhat) (name : String) : Script ContractFactory := do
  emit (.getContractFactory name)
  await (hre.getContractFactory name)

/-- `await factory.deploy(...args)`. -/
def deploy (hre : Hardhat) (factory : ContractFactory) (args : List String) :
    Script Contract := do
  emit (.deploy factory args)
  await (hre.deploy factory args)

/-- `await contract.deployed()`. -/
def deployed (hre : Hardhat) (contract : Contract) : Script Unit := do
  emit (.deployed contract)
  await (hre.deployed contract)

/-- `console.log(...args)` on strings: the arguments joined by one blank, written
as one line to standard output. -/
def consoleLog (args : List String) : Script Unit := fun p =>
  let line := " ".intercalate args
  (.normal (), { p with trace := p.trace ++ [.log line], stdout := p.stdout ++ [line] })

/-- `console.error(error)`: the value is written to standard error. -/
def consoleError (e : JsError) : Script Unit := fun p =>
  (.normal (), { p with trace := p.trace ++ [.error e], stderr := p.stderr ++ [e] })

/-- `process.exit(code)`: the process ends with `code`; nothing runs after it. -/
def processExit {α : Type} (code : Nat) : Script α := fun p =>
  (.exited, { p with trace := p.trace ++ [.exit code], exitCode := some code })

/-- `promise.then(onFulfilled)`: the callback runs on the fulfilment value; a
rejection is passed on. -/
def Script.then_ {α β : Type} (m : Script α) (onFulfilled : α → Script β) : Script β :=
  Script.bind m onFulfilled

/-- `promise.catch(onRejected)`: the callback runs on the rejection reason;
everything else is passed on. -/
def Script.catch_ {α : Type} (m : Script α) (onRejected : JsError → Script α) :
    Script α := fun p =>
  match m p with
  | (.throw e, p1) => onRejected e p1
  | (.normal a, p1) => (.normal a, p1)
  | (.suspended, p1) => (.suspended, p1)
  | (.exited, p1) => (.exited, p1)

/-! ## The script -/

/-- Lines 3-10 of the script, `async function main()`. -/
def main (hre : Hardhat) : Script Unit := do
  let XOXO ← getContractFactory hre "XOXO"
  let xoxo ← deploy hre XOXO []
  deployed hre xoxo
  consoleLog ["XOXO deployed to:", xoxo.address]

/-- Lines 14-19: `main().then(() => process.exit(0)).catch((error) => ...)`. -/
def script (hre : Hardhat) : Script Unit :=
  ((main hre).then_ (fun _ => processExit 0)).catch_ (fun error => do
    consoleError error
    processExit 1)

/-- One invocation of the script in a fresh process. -/
def run (hre : Hardhat) : Process := (script hre {}).2

/-- The calls made by `main` alone, in a fresh process. -/
def mainTrace (hre : Hardhat) : List Event := (main hre {}).2.trace

/-- The status with which the Node process running the script ends, `none`
when it never ends. A call of `process.exit(code)` ends it with `code`. When
`process.exit` was not called, this CommonJS script has nothing that waits on
a pending promise: the process ends with status 0 once the event loop has
nothing left to do, and does not end as long as something (an open socket, a
timer) keeps the loop open, which is what `loopHeld` says. -/
def exitStatus (loopHeld : Bool) (p : Process) : Option Nat :=
  match p.exitCode with
  | some code => some code
  | none => if loopHeld then none else some 0

/-! ## Observers on traces -/

/-- The `deploy` calls of a trace, each with its factory and argument list. -/
def deployCalls : List Event → List (ContractFactory × List String)
  | [] => []
  | .deploy f args :: t => (f, args) :: deployCalls t
  | _ :: t => deployCalls t

/-- The names passed to `getContractFactory` in a trace. -/
def factoryRequests : List Event → List String
  | [] => []
  | .getContractFactory name :: t => name :: factoryRequests t
  | _ :: t => factoryRequests t

/-- The contracts whose `deployed()` was called in a trace. -/
def deployedCalls : List Event → List Contract
  | [] => []
  | .deployed c :: t => c :: deployedCalls t
  | _ :: t => deployedCalls t

/-- The framework calls of a trace: everything but output and exit. -/
def frameworkCalls : List Event → List Event
  | [] => []
  | .log _ :: t => frameworkCalls t
  | .error _ :: t => frameworkCalls t
  | .exit _ :: t => frameworkCalls t
  | ev :: t => ev :: frameworkCalls t

/-! ## Hypotheses on the framework -/

/-- All three framework steps of the script succeed, the deploy call returning
the contract handle `c`. -/
def Succeeds (hre : Hardhat) (c : Contract) : Prop :=
  ∃ f, hre.getContractFactory "XOXO" = .fulfilled f ∧
    hre.deploy f [] = .fulfilled c ∧ hre.deployed c = .fulfilled ()

/-- The first framework step of the script that does not succeed throws `e`. -/
def Throws (hre : Hardhat) (e : JsError) : Prop :=
  hre.getContractFactory "XOXO" = .rejected e ∨
  (∃ f, hre.getContractFactory "XOXO" = .fulfilled f ∧ hre.deploy f [] = .rejected e) ∨
  (∃ f c, hre.getContractFactory "XOXO" = .fulfilled f ∧
    hre.deploy f [] = .fulfilled c ∧ hre.deployed c = .rejected e)

/-- No framework step of the script throws, and one of them never settles. -/
def NeverSettles (hre : Hardhat) : Prop :=
  hre.getContractFactory "XOXO" = .pending ∨
  (∃ f, hre.getContractFactory "XOXO" = .fulfilled f ∧ hre.deploy f [] = .pending) ∨
  (∃ f c, hre.getContractFactory "XOXO" = .fulfilled f ∧
    hre.deploy f [] = .fulfilled c ∧ hre.deployed c = .pending)

/-! ## Sample frameworks -/

/-- A framework on which every step succeeds; the contract lands at `addr`. -/
def hreOk (addr : String) : Hardhat where
  getContractFactory := fun _ => .fulfilled ⟨7⟩
  deploy := fun _ _ => .fulfilled ⟨addr, 1⟩
  deployed := fun _ => .fulfilled ()

/-- A framework whose factory lookup throws. -/
def hreNoFactory : Hardhat where
  getContractFactory := fun name => .rejected ⟨"HH700: Artifact for contract " ++ name ++ " not found"⟩
  deploy := fun _ _ => .fulfilled ⟨"0x5FbDB2315678afecb367f032d93F642f64180aa3", 1⟩
  deployed := fun _ => .fulfilled ()

/-- A framework whose deploy call throws. -/
def hreDeployFails : Hardhat where
  getContractFactory := fun _ => .fulfilled ⟨7⟩
  deploy := fun _ _ => .rejected ⟨"insufficient funds"⟩
  deployed := fun _ => .fulfilled ()

/-- A framework whose confirmation wait throws. -/
def hreConfirmFails : Hardhat where
  getContractFactory := fun _ => .fulfilled ⟨7⟩
  deploy := fun _ _ => .fulfilled ⟨"0x5FbDB2315678afecb367f032d93F642f64180aa3", 1⟩
  deployed := fun _ => .rejected ⟨"transaction failed"⟩

/-- A framework whose confirmation wait never settles. -/
def hreHangs : Hardhat where
  getContractFactory := fun _ => .fulfilled ⟨7⟩
  deploy := fun _ _ => .fulfilled ⟨"0x5FbDB2315678afecb367f032d93F642f64180aa3", 1⟩
  deployed := fun _ => .pending

/-! ## The seven ways a run can go -/

/-- The observable result of a run on which the step after `calls` throws `e`. -/
def failedRun (calls : List Event) (e : JsError) : Process :=
  { trace := calls ++ [.error e, .exit 1], stderr := [e], exitCode := some 1 }

/-- The observable result of a run on which the step after `calls` never settles. -/
def hungRun (calls : List Event) : Process :=
  { trace := calls }

/-- The observable result of a run on which every step succeeds. -/
def okRun (f : ContractFactory) (c : Contract) : Process :=
  { trace := [.getContractFactory "XOXO", .deploy f [], .deployed c,
      .log ("XOXO deployed to: " ++ c.address), .exit 0],
    stdout := ["XOXO deployed to: " ++ c.address],
    exitCode := some 0 }

/-- Every run is one of seven: the first step that does not succeed throws or
never settles (three steps, two ways each), or all three succeed. -/
inductive RunCase (hre : Hardhat) : Prop where
  | lookupRejected (e : JsError)
      (h1 : hre.getContractFactory "XOXO" = .rejected e)
      (hm : mainTrace hre = [.getContractFactory "XOXO"])
      (hr : run hre = failedRun [.getContractFactory "XOXO"] e)
  | lookupPending
      (h1 : hre.getContractFactory "XOXO" = .pending)
      (hm : mainTrace hre = [.getContractFactory "XOXO"])
      (hr : run hre = hungRun [.getContractFactory "XOXO"])
  | deployRejected (f : ContractFactory) (e : JsError)
      (h1 : hre.getContractFactory "XOXO" = .fulfilled f)
      (h2 : hre.deploy f [] = .rejected e)
      (hm : mainTrace hre = [.getContractFactory "XOXO", .deploy f []])
      (hr : run hre = failedRun [.getContractFactory "XOXO", .deploy f []] e)
  | deployPending (f : ContractFactory)
      (h1 : hre.getContractFactory "XOXO" = .fulfilled f)
      (h2 : hre.deploy f [] = .pending)
      (hm : mainTrace hre = [.getContractFactory "XOXO", .deploy f []])
      (hr : run hre = hungRun [.getContractFactory "XOXO", .deploy f []])
  | confirmRejected (f : ContractFactory) (c : Contract) (e : JsError)
      (h1 : hre.getContractFactory "XOXO" = .fulfilled f)
      (h2 : hre.deploy f [] = .fulfilled c)
      (h3 : hre.deployed c = .rejected e)
      (hm : mainTrace hre = [.getContractFactory "XOXO", .deploy f [], .deployed c])
      (hr : run hre = failedRun [.getContractFactory "XOXO", .deploy f [], .deployed c] e)
  | confirmPending (f : ContractFactory) (c : Contract)
      (h1 : hre.getContractFactory "XOXO" = .fulfilled f)
      (h2 : hre.deploy f [] = .fulfilled c)
      (h3 : hre.deployed c = .pending)
      (hm : mainTrace hre = [.getContractFactory "XOXO", .deploy f [], .deployed c])
      (hr : run hre = hungRun [.getContractFactory "XOXO", .deploy f [], .deployed c])
  | allFulfilled (f : ContractFactory) (c : Contract)
      (h1 : hre.getContractFactory "XOXO" = .fulfilled f)
      (h2 : hre.deploy f [] = .fulfilled c)
      (h3 : hre.deployed c = .fulfilled ())
      (hm : mainTrace hre = [.getContractFactory "XOXO", .deploy f [], .deployed c,
        .log ("XOXO deployed to: " ++ c.address)])
      (hr : run hre = okRun f c)

/-! ## The line printed by the script -/

theorem deployedLine (a : String) :
    " ".intercalate ["XOXO deployed to:", a] = "XOXO deployed to: " ++ a := by
  simp [String.intercalate, String.intercalate.go]

/-! ## Each of the seven, computed -/

theorem run_lookup_rejected (hre : Hardhat) (e : JsError)
    (h1 : hre.getContractFactory "XOXO" = .rejected e) :
    mainTrace hre = [.getContractFactory "XOXO"] ∧
    run hre = failedRun [.getContractFactory "XOXO"] e := by
  constructor <;>
  simp [mainTrace, run, failedRun, script, main, Script.then_, Script.catch_, Script.bind, bind,
    getContractFactory, deploy, deployed, await, emit, consoleLog, consoleError, processExit, h1]

theorem run_lookup_pending (hre : Hardhat)
    (h1 : hre.getContractFactory "XOXO" = .pending) :
    mainTrace hre = [.getContractFactory "XOXO"] ∧
    run hre = hungRun [.getContractFactory "XOXO"] := by
  constructor <;>
  simp [mainTrace, run, hungRun, script, main, Script.then_, Script.catch_, Script.bind, bind,
    getContractFactory, deploy, deployed, await, emit, consoleLog, consoleError, processExit, h1]

theorem run_deploy_rejected (hre : Hardhat) (f : ContractFactory) (e : JsError)
    (h1 : hre.getContractFactory "XOXO" = .fulfilled f)
    (h2 : hre.deploy f [] = .rejected e) :
    mainTrace hre = [.getContractFactory "XOXO", .deploy f []] ∧
    run hre = failedRun [.getContractFactory "XOXO", .deploy f []] e := by
  constructor <;>
  simp [mainTrace, run, failedRun, script, main, Script.then_, Script.catch_, Script.bind, bind,
    getContractFactory, deploy, deployed, await, emit, consoleLog, consoleError, processExit,
    h1, h2]

theorem run_deploy_pending (hre : Hardhat) (f : ContractFactory)
    (h1 : hre.getContractFactory "XOXO" = .fulfilled f)
    (h2 : hre.deploy f [] = .pending) :
    mainTrace hre = [.getContractFactory "XOXO", .deploy f []] ∧
    run hre = hungRun [.getContractFactory "XOXO", .deploy f []] := by
  constructor <;>
  simp [mainTrace, run, hungRun, script, main, Script.then_, Script.catch_, Script.bind, bind,
    getContractFactory, deploy, deployed, await, emit, consoleLog, consoleError, processExit,
    h1, h2]

theorem run_confirm_rejected (hre : Hardhat) (f : ContractFactory) (c : Contract) (e : JsError)
    (h1 : hre.getContractFactory "XOXO" = .fulfilled f)
    (h2 : hre.deploy f [] = .fulfilled c)
    (h3 : hre.deployed c = .rejected e) :
    mainTrace hre = [.getContractFactory "XOXO", .deploy f [], .deployed c] ∧
    run hre = failedRun [.getContractFactory "XOXO", .deploy f [], .deployed c] e := by
  constructor <;>
  simp [mainTrace, run, failedRun, script, main, Script.then_, Script.catch_, Script.bind, bind,
    getContractFactory, deploy, deployed, await, emit, consoleLog, consoleError, processExit,
    h1, h2, h3]

theorem run_confirm_pending (hre : Hardhat) (f : ContractFactory) (c : Contract)
    (h1 : hre.getContractFactory "XOXO" = .fulfilled f)
    (h2 : hre.deploy f [] = .fulfilled c)
    (h3 : hre.deployed c = .pending) :
    mainTrace hre = [.getContractFactory "XOXO", .deploy f [], .deployed c] ∧
    run hre = hungRun [.getContractFactory "XOXO", .deploy f [], .deployed c] := by
  constructor <;>
  simp [mainTrace, run, hungRun, script, main, Script.then_, Script.catch_, Script.bind, bind,
    getContractFactory, deploy, deployed, await, emit, consoleLog, consoleError, processExit,
    h1, h2, h3]

theorem run_all_fulfilled (hre : Hardhat) (f : ContractFactory) (c : Contract)
    (h1 : hre.getContractFactory "XOXO" = .fulfilled f)
    (h2 : hre.deploy f [] = .fulfilled c)
    (h3 : hre.deployed c = .fulfilled ()) :
    mainTrace hre = [.getContractFactory "XOXO", .deploy f [], .deployed c,
      .log ("XOXO deployed to: " ++ c.address)] ∧
    run hre = okRun f c := by
  constructor <;>
  simp [mainTrace, run, okRun, script, main, Script.then_, Script.catch_, Script.bind, bind,
    getContractFactory, deploy, deployed, await, emit, consoleLog, consoleError, processExit,
    h1, h2, h3, deployedLine]

theorem run_cases (hre : Hardhat) : RunCase hre := by
  cases h1 : hre.getContractFactory "XOXO" with
  | rejected e =>
    exact .lookupRejected e h1 (run_lookup_rejected hre e h1).1 (run_lookup_rejected hre e h1).2
  | pending =>
    exact .lookupPending h1 (run_lookup_pending hre h1).1 (run_lookup_pending hre h1).2
  | fulfilled f =>
    cases h2 : hre.deploy f [] with
    | rejected e =>
      exact .deployRejected f e h1 h2 (run_deploy_rejected hre f e h1 h2).1
        (run_deploy_rejected hre f e h1 h2).2
    | pending =>
      exact .deployPending f h1 h2 (run_deploy_pending hre f h1 h2).1
        (run_deploy_pending hre f h1 h2).2
    | fulfilled c =>
      cases h3 : hre.deployed c with
      | rejected e =>
        exact .confirmRejected f c e h1 h2 h3 (run_confirm_rejected hre f c e h1 h2 h3).1
          (run_confirm_rejected hre f c e h1 h2 h3).2
      | pending =>
        exact .confirmPending f c h1 h2 h3 (run_confirm_pending hre f c h1 h2 h3).1
          (run_confirm_pending hre f c h1 h2 h3).2
      | fulfilled u =>
        exact .allFulfilled f c h1 h2 h3 (run_all_fulfilled hre f c h1 h2 h3).1
          (run_all_fulfilled hre f c h1 h2 h3).2

/-- The deploy calls of a run, read off the answer to the factory lookup. -/
theorem deployCalls_run (hre : Hardhat) :
    deployCalls (run hre).trace =
      match hre.getContractFactory "XOXO" with
      | .fulfilled f => [(f, [])]
      | _ => [] := by
  cases run_cases hre <;>
    simp_all [failedRun, hungRun, okRun, deployCalls]

/-- The framework calls of a run, read off the answers to the factory lookup
and to the deploy call. -/
theorem frameworkCalls_run (hre : Hardhat) :
    frameworkCalls (run hre).trace =
      match hre.getContractFactory "XOXO" with
      | .fulfilled f =>
        match hre.deploy f [] with
        | .fulfilled c => [.getContractFactory "XOXO", .deploy f [], .deployed c]
        | _ => [.getContractFactory "XOXO", .deploy f []]
      | _ => [.getContractFactory "XOXO"] := by
  cases run_cases hre <;>
    simp_all [failedRun, hungRun, okRun, frameworkCalls]

/-! ## Properties of the script -/

/-- C1: on a run in which the factory lookup, the deploy call and the
confirmation wait all succeed, the deploy call returning the handle `c`,
standard output is exactly the one line `XOXO deployed to: ` followed by
`c.address`, and the process exits with code 0. -/
theorem success_prints_address_and_exits_zero (hre : Hardhat) (c : Contract)
    (h : Succeeds hre c) :
    (run hre).stdout = ["XOXO deployed to: " ++ c.address] ∧ (run hre).exitCode = some 0 := by
  obtain ⟨f, h1, h2, h3⟩ := h
  rw [(run_all_fulfilled hre f c h1 h2 h3).2]
  exact ⟨rfl, rfl⟩

theorem success_prints_address_and_exits_zero_witness :
    Succeeds (hreOk "0x5FbDB2315678afecb367f032d93F642f64180aa3")
        ⟨"0x5FbDB2315678afecb367f032d93F642f64180aa3", 1⟩ ∧
      (run (hreOk "0x5FbDB2315678afecb367f032d93F642f64180aa3")).stdout =
        ["XOXO deployed to: " ++ "0x5FbDB2315678afecb367f032d93F642f64180aa3"] ∧
      (run (hreOk "0x5FbDB2315678afecb367f032d93F642f64180aa3")).exitCode = some 0 :=
  ⟨⟨⟨7⟩, rfl, rfl, rfl⟩,
    success_prints_address_and_exits_zero (hreOk "0x5FbDB2315678afecb367f032d93F642f64180aa3")
      ⟨"0x5FbDB2315678afecb367f032d93F642f64180aa3", 1⟩ ⟨⟨7⟩, rfl, rfl, rfl⟩⟩

/-- C2: on a run in which one of the three framework steps throws `e`, the
process exits with code 1, `e` is written to standard error, and nothing at
all is written to standard output. -/
theorem failure_exits_one_and_reports (hre : Hardhat) (e : JsError) (h : Throws hre e) :
    (run hre).exitCode = some 1 ∧ e ∈ (run hre).stderr ∧ (run hre).stdout = [] := by
  rcases h with h1 | ⟨f, h1, h2⟩ | ⟨f, c, h1, h2, h3⟩
  · rw [(run_lookup_rejected hre e h1).2]
    simp [failedRun]
  · rw [(run_deploy_rejected hre f e h1 h2).2]
    simp [failedRun]
  · rw [(run_confirm_rejected hre f c e h1 h2 h3).2]
    simp [failedRun]

theorem failure_exits_one_and_reports_witness :
    Throws hreDeployFails ⟨"insufficient funds"⟩ ∧
      (run hreDeployFails).exitCode = some 1 ∧
      (⟨"insufficient funds"⟩ : JsError) ∈ (run hreDeployFails).stderr ∧
      (run hreDeployFails).stdout = [] :=
  ⟨Or.inr (Or.inl ⟨⟨7⟩, rfl, rfl⟩),
    failure_exits_one_and_reports hreDeployFails ⟨"insufficient funds"⟩
      (Or.inr (Or.inl ⟨⟨7⟩, rfl, rfl⟩))⟩

/-- C3, as stated, fails: when the factory lookup throws, the deploy operation
is not called once but zero times. -/
theorem deploy_not_called_when_lookup_throws :
    ¬ ((deployCalls (run hreNoFactory).trace).length = 1) := by
  rw [(run_lookup_rejected hreNoFactory _ rfl).2]
  simp [failedRun, deployCalls]

/-- C3, amended: on every run the deploy operation is called at most once (no
retry after a failure); it is called exactly once when the factory lookup
succeeds, and not at all when the lookup does not succeed. -/
theorem deploy_called_at_most_once (hre : Hardhat) :
    (deployCalls (run hre).trace).length ≤ 1 ∧
    ((deployCalls (run hre).trace).length = 1 ↔
      ∃ f, hre.getContractFactory "XOXO" = .fulfilled f) ∧
    ((deployCalls (run hre).trace).length = 0 ↔
      ¬ ∃ f, hre.getContractFactory "XOXO" = .fulfilled f) := by
  cases run_cases hre with
  | lookupRejected e h1 hm hr => simp [hr, h1, failedRun, deployCalls]
  | lookupPending h1 hm hr => simp [hr, h1, hungRun, deployCalls]
  | deployRejected f e h1 h2 hm hr => simp [hr, h1, failedRun, deployCalls]
  | deployPending f h1 h2 hm hr => simp [hr, h1, hungRun, deployCalls]
  | confirmRejected f c e h1 h2 h3 hm hr => simp [hr, h1, failedRun, deployCalls]
  | confirmPending f c h1 h2 h3 hm hr => simp [hr, h1, hungRun, deployCalls]
  | allFulfilled f c h1 h2 h3 hm hr => simp [hr, h1, okRun, deployCalls]

/-- C4: every deploy call of a run carries the empty argument list, and the
call is fixed by the framework's answer to the factory lookup alone: two runs
in which the lookup answers the same issue identical deploy calls, and when
the deploy call answers the same as well, identical framework calls
throughout. -/
theorem deploy_call_has_no_arguments (hre : Hardhat) :
    (∀ call ∈ deployCalls (run hre).trace, call.2 = []) ∧
    ∀ hre2 : Hardhat, hre.getContractFactory "XOXO" = hre2.getContractFactory "XOXO" →
      deployCalls (run hre).trace = deployCalls (run hre2).trace ∧
      ((∀ f, hre.deploy f [] = hre2.deploy f []) →
        frameworkCalls (run hre).trace = frameworkCalls (run hre2).trace) := by
  refine ⟨?_, ?_⟩
  · intro call hcall
    rw [deployCalls_run] at hcall
    split at hcall <;> simp_all
  · intro hre2 h
    refine ⟨?_, ?_⟩
    · rw [deployCalls_run, deployCalls_run, h]
    · intro hd
      rw [frameworkCalls_run, frameworkCalls_run, h]
      cases hre2.getContractFactory "XOXO" with
      | fulfilled f => simp only [hd]
      | rejected e => rfl
      | pending => rfl

theorem deploy_call_has_no_arguments_witness :
    hreDeployFails.getContractFactory "XOXO" = hreConfirmFails.getContractFactory "XOXO" ∧
      deployCalls (run hreDeployFails).trace = [(⟨7⟩, [])] ∧
      deployCalls (run hreDeployFails).trace = deployCalls (run hreConfirmFails).trace :=
  ⟨rfl, by rw [(run_deploy_rejected hreDeployFails ⟨7⟩ _ rfl rfl).2]; rfl,
    ((deploy_call_has_no_arguments hreDeployFails).2 hreConfirmFails rfl).1⟩

/-- C5: on every run the script asks the framework for exactly one contract
factory, by the name "XOXO", and a deploy call, when made, is made on the
factory handle that this lookup returned. -/
theorem factory_requested_once_by_name (hre : Hardhat) :
    factoryRequests (run hre).trace = ["XOXO"] ∧
    ∀ call ∈ deployCalls (run hre).trace,
      hre.getContractFactory "XOXO" = .fulfilled call.1 := by
  cases run_cases hre <;>
    simp_all [failedRun, hungRun, okRun, deployCalls, factoryRequests]

/-- C6, as stated, fails: when the confirmation wait never settles, the three
steps have not all completed, yet the exit code is not 1. With the event loop
kept open the process never exits; with the event loop empty it exits with
status 0 although not all three steps completed. -/
theorem exit_status_not_one_when_wait_hangs :
    ¬ ((exitStatus true (run hreHangs) = some 0 ↔ ∃ c, Succeeds hreHangs c) ∧
      (¬ (∃ c, Succeeds hreHangs c) → exitStatus true (run hreHangs) = some 1)) ∧
    ¬ ((exitStatus false (run hreHangs) = some 0 ↔ ∃ c, Succeeds hreHangs c) ∧
      (¬ (∃ c, Succeeds hreHangs c) → exitStatus false (run hreHangs) = some 1)) := by
  have hr := (run_confirm_pending hreHangs ⟨7⟩
    ⟨"0x5FbDB2315678afecb367f032d93F642f64180aa3", 1⟩ rfl rfl rfl).2
  have hno : ¬ ∃ c, Succeeds hreHangs c := by
    rintro ⟨c, f, -, -, h3⟩
    simp [hreHangs] at h3
  rw [hr]
  constructor
  · rintro ⟨-, h⟩
    simpa [hungRun, exitStatus] using h hno
  · rintro ⟨-, h⟩
    simpa [hungRun, exitStatus] using h hno

/-- C6, amended: the process exit code is 1 exactly when the factory lookup,
the deploy call or the confirmation wait throws, and it is 0 whenever all
three complete without throwing; no exit code other than 0 and 1 is ever
produced. The script calls `process.exit(0)` exactly when all three succeed
and never calls `process.exit` exactly when an awaited step never settles: the
process then ends with status 0 if nothing keeps the event loop open, and does
not end otherwise. -/
theorem exit_status_by_outcome (hre : Hardhat) (loopHeld : Bool) :
    (exitStatus loopHeld (run hre) = some 1 ↔ ∃ e, Throws hre e) ∧
    ((∃ c, Succeeds hre c) → exitStatus loopHeld (run hre) = some 0) ∧
    (exitStatus loopHeld (run hre) = some 0 ↔
      (∃ c, Succeeds hre c) ∨ (NeverSettles hre ∧ loopHeld = false)) ∧
    (exitStatus loopHeld (run hre) = none ↔ NeverSettles hre ∧ loopHeld = true) ∧
    (∀ n, exitStatus loopHeld (run hre) = some n → n = 0 ∨ n = 1) ∧
    ((run hre).exitCode = some 0 ↔ ∃ c, Succeeds hre c) ∧
    ((run hre).exitCode = none ↔ NeverSettles hre) := by
  cases run_cases hre <;> cases loopHeld <;>
    simp_all [failedRun, hungRun, okRun, exitStatus, Succeeds, Throws, NeverSettles]

theorem exit_status_by_outcome_witness :
    (∃ c, Succeeds (hreOk "0x5FbDB2315678afecb367f032d93F642f64180aa3") c) ∧
      exitStatus true (run (hreOk "0x5FbDB2315678afecb367f032d93F642f64180aa3")) = some 0 ∧
      exitStatus false (run hreHangs) = some 0 ∧
      exitStatus true (run hreHangs) = none ∧
      exitStatus true (run hreDeployFails) = some 1 :=
  ⟨⟨_, ⟨7⟩, rfl, rfl, rfl⟩,
    (exit_status_by_outcome _ true).2.1 ⟨_, ⟨7⟩, rfl, rfl, rfl⟩,
    (exit_status_by_outcome hreHangs false).2.2.1.mpr
      (Or.inr ⟨Or.inr (Or.inr ⟨⟨7⟩, ⟨"0x5FbDB2315678afecb367f032d93F642f64180aa3", 1⟩,
        rfl, rfl, rfl⟩), rfl⟩),
    (exit_status_by_outcome hreHangs true).2.2.2.1.mpr
      ⟨Or.inr (Or.inr ⟨⟨7⟩, ⟨"0x5FbDB2315678afecb367f032d93F642f64180aa3", 1⟩,
        rfl, rfl, rfl⟩), rfl⟩,
    (exit_status_by_outcome hreDeployFails true).1.mpr
      ⟨⟨"insufficient funds"⟩, Or.inr (Or.inl ⟨⟨7⟩, rfl, rfl⟩)⟩⟩

/-- C7: the calls of `main` are always an initial segment of
getContractFactory, deploy, deployed, print address, in this order, and the
run adds only the error report and the exit after them. If the factory lookup
throws, deploy and the confirmation wait are never called; if deploy throws,
the confirmation wait is never called; and a printed line occurs only in a run
whose three steps all succeeded, after the confirmation wait. -/
theorem calls_in_fixed_order (hre : Hardhat) :
    (∃ f c, mainTrace hre <+: [Event.getContractFactory "XOXO", Event.deploy f [],
      Event.deployed c, Event.log ("XOXO deployed to: " ++ c.address)]) ∧
    (∃ tail, (run hre).trace = mainTrace hre ++ tail ∧
      ∀ ev ∈ tail, (∃ e, ev = Event.error e) ∨ (∃ n, ev = Event.exit n)) ∧
    (∀ e, hre.getContractFactory "XOXO" = .rejected e →
      deployCalls (run hre).trace = [] ∧ deployedCalls (run hre).trace = []) ∧
    (∀ f e, hre.getContractFactory "XOXO" = .fulfilled f → hre.deploy f [] = .rejected e →
      deployedCalls (run hre).trace = []) ∧
    (∀ line, Event.log line ∈ (run hre).trace →
      ∃ f c, hre.getContractFactory "XOXO" = .fulfilled f ∧
        hre.deploy f [] = .fulfilled c ∧ hre.deployed c = .fulfilled () ∧
        (run hre).trace = [Event.getContractFactory "XOXO", Event.deploy f [],
          Event.deployed c, Event.log line, Event.exit 0]) := by
  cases run_cases hre with
  | lookupRejected e h1 hm hr =>
    refine ⟨⟨⟨0⟩, ⟨"", 0⟩, ?_⟩, ⟨[.error e, .exit 1], ?_, ?_⟩, ?_, ?_, ?_⟩ <;>
      simp_all [failedRun, hungRun, okRun, deployCalls, deployedCalls]
  | lookupPending h1 hm hr =>
    refine ⟨⟨⟨0⟩, ⟨"", 0⟩, ?_⟩, ⟨[], ?_, ?_⟩, ?_, ?_, ?_⟩ <;>
      simp_all [failedRun, hungRun, okRun, deployCalls, deployedCalls]
  | deployRejected f e h1 h2 hm hr =>
    refine ⟨⟨f, ⟨"", 0⟩, ?_⟩, ⟨[.error e, .exit 1], ?_, ?_⟩, ?_, ?_, ?_⟩ <;>
      simp_all [failedRun, hungRun, okRun, deployCalls, deployedCalls]
  | deployPending f h1 h2 hm hr =>
    refine ⟨⟨f, ⟨"", 0⟩, ?_⟩, ⟨[], ?_, ?_⟩, ?_, ?_, ?_⟩ <;>
      simp_all [failedRun, hungRun, okRun, deployCalls, deployedCalls]
  | confirmRejected f c e h1 h2 h3 hm hr =>
    refine ⟨⟨f, c, ?_⟩, ⟨[.error e, .exit 1], ?_, ?_⟩, ?_, ?_, ?_⟩ <;>
      simp_all [failedRun, hungRun, okRun, deployCalls, deployedCalls]
    intro f1 e1 hf
    subst hf
    simp [h2]
  | confirmPending f c h1 h2 h3 hm hr =>
    refine ⟨⟨f, c, ?_⟩, ⟨[], ?_, ?_⟩, ?_, ?_, ?_⟩ <;>
      simp_all [failedRun, hungRun, okRun, deployCalls, deployedCalls]
    intro f1 e1 hf
    subst hf
    simp [h2]
  | allFulfilled f c h1 h2 h3 hm hr =>
    refine ⟨⟨f, c, ?_⟩, ⟨[.exit 0], ?_, ?_⟩, ?_, ?_, ?_⟩ <;>
      simp_all [failedRun, hungRun, okRun, deployCalls, deployedCalls]
    intro f1 e1 hf
    subst hf
    simp [h2]

theorem calls_in_fixed_order_witness :
    hreNoFactory.getContractFactory "XOXO" =
        .rejected ⟨"HH700: Artifact for contract XOXO not found"⟩ ∧
      deployCalls (run hreNoFactory).trace = [] ∧
      deployedCalls (run hreNoFactory).trace = [] :=
  ⟨rfl, (calls_in_fixed_order hreNoFactory).2.2.1 _ rfl⟩

/-- C8: a run in which all three framework steps succeed writes nothing to
standard error; a run in which a step throws writes exactly one entry there,
the error thrown by the first failing step. -/
theorem stderr_holds_only_the_thrown_error (hre : Hardhat) :
    (∀ c, Succeeds hre c → (run hre).stderr = []) ∧
    (∀ e, Throws hre e → (run hre).stderr = [e]) := by
  cases run_cases hre <;>
    simp_all [failedRun, hungRun, okRun, Succeeds, Throws]

theorem stderr_holds_only_the_thrown_error_witness :
    Succeeds (hreOk "0x5FbDB2315678afecb367f032d93F642f64180aa3")
        ⟨"0x5FbDB2315678afecb367f032d93F642f64180aa3", 1⟩ ∧
      (run (hreOk "0x5FbDB2315678afecb367f032d93F642f64180aa3")).stderr = [] ∧
      Throws hreConfirmFails ⟨"transaction failed"⟩ ∧
      (run hreConfirmFails).stderr = [⟨"transaction failed"⟩] :=
  ⟨⟨⟨7⟩, rfl, rfl, rfl⟩,
    (stderr_holds_only_the_thrown_error _).1 _ ⟨⟨7⟩, rfl, rfl, rfl⟩,
    Or.inr (Or.inr ⟨⟨7⟩, ⟨"0x5FbDB2315678afecb367f032d93F642f64180aa3", 1⟩, rfl, rfl, rfl⟩),
    (stderr_holds_only_the_thrown_error _).2 _
      (Or.inr (Or.inr ⟨⟨7⟩, ⟨"0x5FbDB2315678afecb367f032d93F642f64180aa3", 1⟩, rfl, rfl, rfl⟩))⟩

end DeployTest
